import Mathlib

/-!
Shallow embedding of the signaling and negotiation core of the
instant-vid-link repository.

The embedded code:
* `src/components/VideoRoom.tsx` — `handleSignalReceived`,
  `createPeerConnection`, `onParticipantJoined`, `onParticipantLeft`,
  `updatePeerConnectionStreams`, `handleToggleMute`,
  `handleToggleScreenShare`.
* `src/hooks/useSupabaseSignaling.ts` — `leaveRoom` and the realtime
  signal-row subscription filter.
* the `cleanup_participant` SQL function (migration file).

Browser RTCPeerConnection objects are modelled as explicit records with the
signaling-state machine of the WebRTC standard (`stable`,
`have-local-offer`, `have-remote-offer`, `closed`); `setRemoteDescription`
with an offer succeeds from `stable`/`have-remote-offer` and throws from
`have-local-offer`, `setLocalDescription` with an offer succeeds from
`stable`/`have-local-offer`, and `addIceCandidate` requires a remote
description.  Thrown errors are swallowed by the try/catch blocks of the
source, which the embedding renders as branches that leave the state as it
was at the point of the throw.  Media acquisition
(`getUserMedia`/`getDisplayMedia`) is external; its result is passed to the
embedded handlers as an `Option (List MediaTrack)` parameter (`none`
modelling an acquisition failure, which the source catches).
-/

/-- Track kind, the value of `MediaStreamTrack.kind` (`"audio"`/`"video"`). -/
inductive TrackKind where
  | audio
  | video
deriving DecidableEq

/-- A media track: kind, an identity (`track.id`), the `enabled` flag and
whether `readyState === "live"` (as opposed to `"ended"`). -/
structure MediaTrack where
  kind : TrackKind
  tid : Nat
  enabled : Bool
  live : Bool
deriving DecidableEq

/-- The WebRTC signaling states reachable in this program. -/
inductive SignalingState where
  | stable
  | haveLocalOffer
  | haveRemoteOffer
  | closedState
deriving DecidableEq

/-- Model of one RTCPeerConnection as used by VideoRoom: its signaling
state, whether a remote description has been applied, the sender list
(`none` marks a sender whose track was removed via `removeTrack`), and the
list of ICE candidate payloads applied via `addIceCandidate`, in order. -/
structure PeerConn where
  pcId : Nat
  signaling : SignalingState
  hasRemoteDesc : Bool
  senders : List (Option MediaTrack)
  appliedIce : List Nat
deriving DecidableEq

/-- The three signal types of the wire protocol. -/
inductive SignalType where
  | offer
  | answer
  | ice
deriving DecidableEq

/-- A signal row as delivered by the realtime channel (payload is opaque,
modelled as a number). -/
structure Signal where
  sender_id : String
  target_id : Option String
  type : SignalType
  payload : Nat
deriving DecidableEq

/-- An outbound signal produced by `sendSignal(target, type, payload)`. -/
structure SentSignal where
  target : String
  sigType : SignalType
  payload : Nat
deriving DecidableEq

/-- The `peerConnections` registry: a JS `Map` from participant id to
connection, modelled as an insertion-ordered association list. -/
abbrev Registry := List (String × PeerConn)

/-- `Map.get`. -/
def mapGet : Registry → String → Option PeerConn
  | [], _ => none
  | e :: rest, k => if e.1 = k then some e.2 else mapGet rest k

/-- `Map.set`: replace the entry of an existing key in place, otherwise
append at the end (JS `Map` insertion order). -/
def mapSet : Registry → String → PeerConn → Registry
  | [], k, v => [(k, v)]
  | e :: rest, k, v => if e.1 = k then (k, v) :: rest else e :: mapSet rest k v

/-- `Map.delete`. -/
def mapDelete : Registry → String → Registry
  | [], _ => []
  | e :: rest, k => if e.1 = k then mapDelete rest k else e :: mapDelete rest k

/-- Mutation of the connection object an existing key points at (JS code
mutates the object aliased by the map). -/
def modifyPc (m : Registry) (k : String) (f : PeerConn → PeerConn) : Registry :=
  m.map (fun e => if e.1 = k then (e.1, f e.2) else e)

/-- The component state of `VideoRoom` that the claims concern. -/
structure RoomState where
  peerConnections : Registry
  participants : List String
  localStream : Option (List MediaTrack)
  isMuted : Bool
  isVideoOff : Bool
  isScreenSharing : Bool
  nextPcId : Nat
deriving DecidableEq

/-- State at mount time. -/
def initialRoom : RoomState :=
  { peerConnections := []
    participants := []
    localStream := none
    isMuted := false
    isVideoOff := false
    isScreenSharing := false
    nextPcId := 0 }

/-- The track-adding block shared by `createPeerConnection` and the offer
branch of `handleSignalReceived`: if a local stream with at least one track
exists, each track with `readyState === "live"` is added to the fresh
connection (dead tracks are skipped with a warning). -/
def liveTracksAsSenders (stream : Option (List MediaTrack)) : List (Option MediaTrack) :=
  match stream with
  | some ts => if ts.length > 0 then (ts.filter (fun t => t.live)).map some else []
  | none => []

/-- `new RTCPeerConnection(rtcConfig)` followed by the track-adding block. -/
def newPeerConn (pcId : Nat) (stream : Option (List MediaTrack)) : PeerConn :=
  { pcId := pcId
    signaling := SignalingState.stable
    hasRemoteDesc := false
    senders := liveTracksAsSenders stream
    appliedIce := [] }

/-- States from which `setRemoteDescription(offer)` succeeds; from
`have-local-offer` or `closed` it throws InvalidStateError. -/
def canApplyRemoteOffer : SignalingState → Bool
  | SignalingState.stable => true
  | SignalingState.haveRemoteOffer => true
  | _ => false

/-- States from which `createOffer` + `setLocalDescription(offer)` succeeds. -/
def canCreateOffer : SignalingState → Bool
  | SignalingState.stable => true
  | SignalingState.haveLocalOffer => true
  | _ => false

/-- `handleSignalReceived` of VideoRoom.tsx.  Offer: get the existing
connection for the sender or create and register a fresh one with the local
tracks attached, then `setRemoteDescription(payload)`, `createAnswer`,
`setLocalDescription(answer)` and send the answer — if
`setRemoteDescription` throws (connection in `have-local-offer`), the
whole tail is skipped by the catch and only the registration (which
happened before the await) persists.  Answer: applied only if the
connection exists and `signalingState === "have-local-offer"`.  Ice:
applied only if the connection exists and `remoteDescription` is set,
otherwise the candidate is dropped. -/
def handleSignalReceived (s : RoomState) (sig : Signal) : RoomState × List SentSignal :=
  match sig.type with
  | SignalType.offer =>
    let got := mapGet s.peerConnections sig.sender_id
    let s1 :=
      match got with
      | some _ => s
      | none =>
        { s with
            peerConnections :=
              mapSet s.peerConnections sig.sender_id (newPeerConn s.nextPcId s.localStream)
            nextPcId := s.nextPcId + 1 }
    let pc :=
      match got with
      | some pc => pc
      | none => newPeerConn s.nextPcId s.localStream
    if canApplyRemoteOffer pc.signaling then
      ({ s1 with
           peerConnections :=
             mapSet s1.peerConnections sig.sender_id
               { pc with signaling := SignalingState.stable, hasRemoteDesc := true } },
       [{ target := sig.sender_id, sigType := SignalType.answer, payload := 0 }])
    else
      (s1, [])
  | SignalType.answer =>
    match mapGet s.peerConnections sig.sender_id with
    | some pc =>
      if pc.signaling = SignalingState.haveLocalOffer then
        ({ s with
             peerConnections :=
               mapSet s.peerConnections sig.sender_id
                 { pc with signaling := SignalingState.stable, hasRemoteDesc := true } },
         [])
      else (s, [])
    | none => (s, [])
  | SignalType.ice =>
    match mapGet s.peerConnections sig.sender_id with
    | some pc =>
      if pc.hasRemoteDesc then
        ({ s with
             peerConnections :=
               mapSet s.peerConnections sig.sender_id
                 { pc with appliedIce := pc.appliedIce ++ [sig.payload] } },
         [])
      else (s, [])
    | none => (s, [])

/-- `createPeerConnection(targetParticipantId, currentStream)`: build a
fresh connection with the live local tracks attached and unconditionally
`peerConnections.current.set(targetParticipantId, pc)`.  Returns the id of
the fresh connection (the source returns the object itself). -/
def createPeerConnection (s : RoomState) (targetId : String)
    (currentStream : Option (List MediaTrack)) : RoomState × Nat :=
  ({ s with
       peerConnections :=
         mapSet s.peerConnections targetId (newPeerConn s.nextPcId currentStream)
       nextPcId := s.nextPcId + 1 },
   s.nextPcId)

/-- `onParticipantJoined`: ignore a duplicate id; otherwise record the
participant and, if a local stream with tracks exists, create a connection
via `createPeerConnection`, `createOffer` + `setLocalDescription` on it and
send the offer. -/
def onParticipantJoined (s : RoomState) (pid : String) : RoomState × List SentSignal :=
  if pid ∈ s.participants then (s, [])
  else
    let s1 := { s with participants := s.participants ++ [pid] }
    match s1.localStream with
    | some ts =>
      if ts.length > 0 then
        let s2 := (createPeerConnection s1 pid (some ts)).1
        let s3 :=
          { s2 with
              peerConnections :=
                modifyPc s2.peerConnections pid
                  (fun pc => { pc with signaling := SignalingState.haveLocalOffer }) }
        (s3, [{ target := pid, sigType := SignalType.offer, payload := 0 }])
      else (s1, [])
    | none => (s1, [])

/-- `onParticipantLeft`: close and delete the connection if one exists, and
drop the participant from the list. -/
def onParticipantLeft (s : RoomState) (pid : String) : RoomState :=
  let s1 :=
    match mapGet s.peerConnections pid with
    | some _ => { s with peerConnections := mapDelete s.peerConnections pid }
    | none => s
  { s1 with participants := s1.participants.filter (fun p => p ≠ pid) }

/-- First loop body of `updatePeerConnectionStreams`: a sender holding a
track is `replaceTrack`-ed with the first new track of the same kind if
one exists, else `removeTrack`-ed; a sender already without a track is
left alone. -/
def replaceSender (newTracks : List MediaTrack) (sender : Option MediaTrack) :
    Option MediaTrack :=
  match sender with
  | some t =>
    match newTracks.find? (fun nt => nt.kind == t.kind) with
    | some nt => some nt
    | none => none
  | none => none

/-- The `senders.find(sender => sender.track?.kind === track.kind)` test of
the second loop, against the snapshot of senders taken before the loops. -/
def kindHasSender (senders : List (Option MediaTrack)) (k : TrackKind) : Bool :=
  senders.any (fun sd =>
    match sd with
    | some t => t.kind == k
    | none => false)

/-- Net effect of the two loops of `updatePeerConnectionStreams` on one
sender list: same-kind tracks replaced in place, kinds with no new track
removed, new kinds appended. -/
def updateSenders (senders : List (Option MediaTrack)) (newTracks : List MediaTrack) :
    List (Option MediaTrack) :=
  senders.map (replaceSender newTracks)
    ++ (newTracks.filter (fun nt => !kindHasSender senders nt.kind)).map some

/-- Per-connection body of `updatePeerConnectionStreams`, including its
try/catch: on a closed connection `replaceTrack` throws before anything
changes; otherwise the sender list is rewritten and then
`createOffer` + `setLocalDescription` + `sendSignal` runs, which throws
(after the sender rewrite) unless the connection is in `stable` or
`have-local-offer`.  The returned flag records whether the offer was sent. -/
def updatePC (pc : PeerConn) (newTracks : List MediaTrack) : PeerConn × Bool :=
  if pc.signaling = SignalingState.closedState then (pc, false)
  else
    let pc1 := { pc with senders := updateSenders pc.senders newTracks }
    if canCreateOffer pc1.signaling then
      ({ pc1 with signaling := SignalingState.haveLocalOffer }, true)
    else (pc1, false)

/-- `updatePeerConnectionStreams(newStream)`: fan the per-connection update
out over every registry entry; each entry has its own catch, so the fan-out
always completes and returns the updated registry plus the offers sent. -/
def updatePeerConnectionStreams (regs : Registry) (newTracks : List MediaTrack) :
    Registry × List SentSignal :=
  match regs with
  | [] => ([], [])
  | (pid, pc) :: rest =>
    let r := updatePC pc newTracks
    let tail := updatePeerConnectionStreams rest newTracks
    ((pid, r.1) :: tail.1,
     (if r.2 then [{ target := pid, sigType := SignalType.offer, payload := 0 }] else [])
       ++ tail.2)

/-- `track.enabled = e` on the track object with identity `tid`. -/
def setEnabledByTid (tid : Nat) (e : Bool) (t : MediaTrack) : MediaTrack :=
  if t.tid = tid then { t with enabled := e } else t

/-- Mutating a track object is visible through every alias: in the local
stream and in every sender that holds the same track. -/
def setEnabledEverywhere (s : RoomState) (tid : Nat) (e : Bool) : RoomState :=
  { s with
      localStream := s.localStream.map (fun ts => ts.map (setEnabledByTid tid e))
      peerConnections :=
        s.peerConnections.map (fun en =>
          (en.1, { en.2 with senders := en.2.senders.map (fun sd => sd.map (setEnabledByTid tid e)) })) }

/-- `localStream.getAudioTracks()[0]`. -/
def firstAudioTrack (ts : List MediaTrack) : Option MediaTrack :=
  (ts.filter (fun t => t.kind == TrackKind.audio)).head?

/-- `handleToggleMute`: with no stream or no audio track, nothing happens.
With an audio track whose `readyState === "ended"`, the stream is
re-acquired (`freshStream`, `none` = `getUserMedia` failure, caught) and
`updatePeerConnectionStreams` renegotiates with every peer.  With a live
audio track, only the `enabled` flag of that track is flipped. -/
def handleToggleMute (s : RoomState) (freshStream : Option (List MediaTrack)) :
    RoomState × List SentSignal :=
  match s.localStream with
  | none => (s, [])
  | some ts =>
    match firstAudioTrack ts with
    | none => (s, [])
    | some audioTrack =>
      if audioTrack.live = false then
        match freshStream with
        | some newTs =>
          let r := updatePeerConnectionStreams s.peerConnections newTs
          ({ s with
               localStream := some newTs
               isMuted := false
               peerConnections := r.1 },
           r.2)
        | none => (s, [])
      else
        let e := !audioTrack.enabled
        let s1 := setEnabledEverywhere s audioTrack.tid e
        ({ s1 with isMuted := !e }, [])

/-- `localStream.getAudioTracks()`. -/
def audioTracksOf (ts : List MediaTrack) : List MediaTrack :=
  ts.filter (fun t => t.kind == TrackKind.audio)

/-- `stream.getVideoTracks()`. -/
def videoTracksOf (ts : List MediaTrack) : List MediaTrack :=
  ts.filter (fun t => t.kind == TrackKind.video)

/-- `handleToggleScreenShare`.  When sharing: re-acquire the camera
(`acquired`; `none` = failure, caught before any state change) and
renegotiate with every peer.  When not sharing: `acquired` is the
`getDisplayMedia` result; the combined stream is its video tracks plus the
current live microphone track, or else the tracks of a fallback microphone
acquisition (`micFallback`, whose failure is only a warning); set the
combined stream, mark sharing, and renegotiate with every peer. -/
def handleToggleScreenShare (s : RoomState) (acquired : Option (List MediaTrack))
    (micFallback : Option (List MediaTrack)) : RoomState × List SentSignal :=
  if s.isScreenSharing then
    match acquired with
    | none => (s, [])
    | some cam =>
      let r := updatePeerConnectionStreams s.peerConnections cam
      ({ s with
           localStream := some cam
           isScreenSharing := false
           isMuted := false
           isVideoOff := false
           peerConnections := r.1 },
       r.2)
  else
    let currentAudioTrack :=
      match s.localStream with
      | some ts => (audioTracksOf ts).head?
      | none => none
    match acquired with
    | none => (s, [])
    | some screenTracks =>
      let audioPart :=
        match currentAudioTrack with
        | some a =>
          if a.live then [a]
          else
            match micFallback with
            | some mic => audioTracksOf mic
            | none => []
        | none =>
          match micFallback with
          | some mic => audioTracksOf mic
          | none => []
      let combined := videoTracksOf screenTracks ++ audioPart
      let r := updatePeerConnectionStreams s.peerConnections combined
      ({ s with
           localStream := some combined
           isScreenSharing := true
           peerConnections := r.1 },
       r.2)

/-- One event of the serialized input stream of the room. -/
inductive RoomEvent where
  | joined (pid : String)
  | left (pid : String)
  | signal (sig : Signal)
deriving DecidableEq

/-- State transition of one event (outbound signals discarded). -/
def stepRoom (s : RoomState) (ev : RoomEvent) : RoomState :=
  match ev with
  | RoomEvent.joined pid => (onParticipantJoined s pid).1
  | RoomEvent.left pid => onParticipantLeft s pid
  | RoomEvent.signal sig => (handleSignalReceived s sig).1

/-- Run a sequence of events. -/
def runRoom (s : RoomState) (evs : List RoomEvent) : RoomState :=
  evs.foldl stepRoom s

/-- The ids the registry currently holds, in order. -/
def registryKeys (m : Registry) : List String :=
  m.map (fun e => e.1)

/-- A row of the `participants` table. -/
structure ParticipantRow where
  room_id : String
  participant_id : String
  display_name : String
deriving DecidableEq

/-- A row of the `signals` table. -/
structure SignalRow where
  room_id : String
  sender_id : String
  target_id : Option String
  payload : Nat
deriving DecidableEq

/-- The two tables the signaling hook touches. -/
structure SignalingDb where
  participants : List ParticipantRow
  signals : List SignalRow
deriving DecidableEq

/-- State of the `useSupabaseSignaling` hook: the `isJoined` ref plus the
database it mutates. -/
structure HookState where
  isJoined : Bool
  db : SignalingDb
deriving DecidableEq

/-- The `cleanup_participant(p_participant_id, p_room_id)` SQL function:
delete the participant row and every signal the participant sent or was
the target of, in that room. -/
def cleanupParticipant (db : SignalingDb) (pid roomId : String) : SignalingDb :=
  { participants :=
      db.participants.filter (fun r => !(r.participant_id == pid && r.room_id == roomId))
    signals :=
      ((db.signals.filter (fun r => !(r.sender_id == pid && r.room_id == roomId))).filter
        (fun r => !(r.target_id == some pid && r.room_id == roomId))) }

/-- `leaveRoom` of the hook: a no-op unless `isJoined` is set; otherwise
run the cleanup RPC and clear `isJoined`.  The flag in the result records
whether the cleanup RPC was invoked. -/
def leaveRoom (h : HookState) (roomId pid : String) : HookState × Bool :=
  if h.isJoined = false then (h, false)
  else ({ isJoined := false, db := cleanupParticipant h.db pid roomId }, true)

/-- The realtime-channel INSERT handler for the `signals` table: the
callback `onSignalReceived(signal)` fires exactly when the row was sent by
someone else and is addressed to this participant or broadcast.  `some`
models the callback firing with the row, `none` models the row being
ignored. -/
def signalRowDelivered (participantId : String) (sig : Signal) : Option Signal :=
  if sig.sender_id != participantId
      && (sig.target_id == some participantId || sig.target_id == none) then
    some sig
  else none

/-- A live audio track used by the concrete scenarios. -/
def trackA : MediaTrack :=
  { kind := TrackKind.audio, tid := 1, enabled := true, live := true }

/-- A live video track used by the concrete scenarios. -/
def trackV : MediaTrack :=
  { kind := TrackKind.video, tid := 2, enabled := true, live := true }

/-- A second live audio track (distinct object, same kind). -/
def trackA2 : MediaTrack :=
  { kind := TrackKind.audio, tid := 11, enabled := true, live := true }

/-- A second live video track (distinct object, same kind). -/
def trackV2 : MediaTrack :=
  { kind := TrackKind.video, tid := 12, enabled := true, live := true }

/-- A camera stream: one audio and one video track. -/
def camStream : List MediaTrack := [trackA, trackV]

/-- The room state right after `getUserMedia` resolved. -/
def roomWithStream : RoomState := { initialRoom with localStream := some camStream }

/-- A connection in `stable` state, remote description applied. -/
def stablePc : PeerConn :=
  { pcId := 0
    signaling := SignalingState.stable
    hasRemoteDesc := true
    senders := [some trackA, some trackV]
    appliedIce := [] }

/-- A room with one established peer and the camera stream. -/
def roomOnePeer : RoomState :=
  { initialRoom with
      localStream := some camStream
      participants := ["p"]
      peerConnections := [("p", stablePc)]
      nextPcId := 1 }

example : mapGet (mapSet [] "x" stablePc) "x" = some stablePc := by decide
example : (onParticipantJoined roomWithStream "b").2
    = [{ target := "b", sigType := SignalType.offer, payload := 0 }] := by decide

theorem mapGet_mapSet_self (m : Registry) (k : String) (v : PeerConn) :
    mapGet (mapSet m k v) k = some v := by
  induction m with
  | nil => simp [mapGet, mapSet]
  | cons e rest ih =>
    by_cases h : e.1 = k
    · simp [mapSet, mapGet, h]
    · simp [mapSet, mapGet, h, ih]

theorem mapGet_mapSet_ne (m : Registry) (k k2 : String) (v : PeerConn) (h : k2 ≠ k) :
    mapGet (mapSet m k v) k2 = mapGet m k2 := by
  induction m with
  | nil => simp [mapGet, mapSet, Ne.symm h]
  | cons e rest ih =>
    by_cases he : e.1 = k
    · subst he
      simp [mapSet, mapGet, Ne.symm h]
    · by_cases he2 : e.1 = k2
      · simp [mapSet, mapGet, he, he2, h]
      · simp [mapSet, mapGet, he, he2, ih]

theorem mapGet_mapDelete_self (m : Registry) (k : String) :
    mapGet (mapDelete m k) k = none := by
  induction m with
  | nil => simp [mapGet, mapDelete]
  | cons e rest ih =>
    by_cases h : e.1 = k
    · simp [mapDelete, h, ih]
    · simp [mapDelete, mapGet, h, ih]

theorem registryKeys_cons (e : String × PeerConn) (rest : Registry) :
    registryKeys (e :: rest) = e.1 :: registryKeys rest := rfl

theorem registryKeys_mapSet_cons (e : String × PeerConn) (rest : Registry)
    (k : String) (v : PeerConn) :
    registryKeys (mapSet (e :: rest) k v) =
      if e.1 = k then k :: registryKeys rest else e.1 :: registryKeys (mapSet rest k v) := by
  by_cases h : e.1 = k <;> simp [mapSet, registryKeys, h]

theorem mem_registryKeys_mapSet (m : Registry) (k x : String) (v : PeerConn)
    (h : x ∈ registryKeys (mapSet m k v)) : x ∈ registryKeys m ∨ x = k := by
  induction m with
  | nil =>
    simp only [mapSet, registryKeys, List.map_cons, List.map_nil,
      List.mem_singleton] at h
    exact Or.inr h
  | cons e rest ih =>
    rw [registryKeys_mapSet_cons] at h
    rw [registryKeys_cons]
    by_cases he : e.1 = k
    · rw [if_pos he] at h
      rcases List.mem_cons.mp h with h | h
      · exact Or.inr h
      · exact Or.inl (List.mem_cons.mpr (Or.inr h))
    · rw [if_neg he] at h
      rcases List.mem_cons.mp h with h | h
      · exact Or.inl (List.mem_cons.mpr (Or.inl h))
      · rcases ih h with h2 | h2
        · exact Or.inl (List.mem_cons.mpr (Or.inr h2))
        · exact Or.inr h2

theorem nodup_registryKeys_mapSet (m : Registry) (k : String) (v : PeerConn)
    (h : (registryKeys m).Nodup) : (registryKeys (mapSet m k v)).Nodup := by
  induction m with
  | nil => simp [registryKeys, mapSet]
  | cons e rest ih =>
    rw [registryKeys_cons] at h
    rcases List.nodup_cons.mp h with ⟨hne, hrest⟩
    rw [registryKeys_mapSet_cons]
    by_cases he : e.1 = k
    · rw [if_pos he]
      exact List.nodup_cons.mpr ⟨he ▸ hne, hrest⟩
    · rw [if_neg he]
      refine List.nodup_cons.mpr ⟨?_, ih hrest⟩
      intro hmem
      rcases mem_registryKeys_mapSet rest k e.1 v hmem with h2 | h2
      · exact hne h2
      · exact he h2

theorem registryKeys_mapDelete_cons (e : String × PeerConn) (rest : Registry)
    (k : String) :
    registryKeys (mapDelete (e :: rest) k) =
      if e.1 = k then registryKeys (mapDelete rest k)
      else e.1 :: registryKeys (mapDelete rest k) := by
  by_cases h : e.1 = k <;> simp [mapDelete, registryKeys, h]

theorem mem_registryKeys_mapDelete (m : Registry) (k x : String)
    (h : x ∈ registryKeys (mapDelete m k)) : x ∈ registryKeys m := by
  induction m with
  | nil => simp [registryKeys, mapDelete] at h
  | cons e rest ih =>
    rw [registryKeys_mapDelete_cons] at h
    rw [registryKeys_cons]
    by_cases he : e.1 = k
    · rw [if_pos he] at h
      exact List.mem_cons.mpr (Or.inr (ih h))
    · rw [if_neg he] at h
      rcases List.mem_cons.mp h with h | h
      · exact List.mem_cons.mpr (Or.inl h)
      · exact List.mem_cons.mpr (Or.inr (ih h))

theorem nodup_registryKeys_mapDelete (m : Registry) (k : String)
    (h : (registryKeys m).Nodup) : (registryKeys (mapDelete m k)).Nodup := by
  induction m with
  | nil => simp [registryKeys, mapDelete]
  | cons e rest ih =>
    rw [registryKeys_cons] at h
    rcases List.nodup_cons.mp h with ⟨hne, hrest⟩
    rw [registryKeys_mapDelete_cons]
    by_cases he : e.1 = k
    · rw [if_pos he]
      exact ih hrest
    · rw [if_neg he]
      refine List.nodup_cons.mpr ⟨?_, ih hrest⟩
      intro hmem
      exact hne (mem_registryKeys_mapDelete rest k e.1 hmem)

theorem registryKeys_modifyPc (m : Registry) (k : String) (f : PeerConn → PeerConn) :
    registryKeys (modifyPc m k f) = registryKeys m := by
  simp only [registryKeys, modifyPc, List.map_map]
  congr 1
  funext e
  by_cases h : e.1 = k <;> simp [h]

theorem nodup_handleSignalReceived (s : RoomState) (sig : Signal)
    (h : (registryKeys s.peerConnections).Nodup) :
    (registryKeys (handleSignalReceived s sig).1.peerConnections).Nodup := by
  rcases sig with ⟨sid, tid, ty, pl⟩
  cases ty with
  | offer =>
    cases hg : mapGet s.peerConnections sid with
    | some pc =>
      simp only [handleSignalReceived, hg]
      split
      · exact nodup_registryKeys_mapSet _ _ _ h
      · exact h
    | none =>
      simp only [handleSignalReceived, hg]
      split
      · exact nodup_registryKeys_mapSet _ _ _ (nodup_registryKeys_mapSet _ _ _ h)
      · exact nodup_registryKeys_mapSet _ _ _ h
  | answer =>
    cases hg : mapGet s.peerConnections sid with
    | some pc =>
      simp only [handleSignalReceived, hg]
      split
      · exact nodup_registryKeys_mapSet _ _ _ h
      · exact h
    | none => simpa only [handleSignalReceived, hg] using h
  | ice =>
    cases hg : mapGet s.peerConnections sid with
    | some pc =>
      simp only [handleSignalReceived, hg]
      split
      · exact nodup_registryKeys_mapSet _ _ _ h
      · exact h
    | none => simpa only [handleSignalReceived, hg] using h

theorem nodup_onParticipantJoined (s : RoomState) (pid : String)
    (h : (registryKeys s.peerConnections).Nodup) :
    (registryKeys (onParticipantJoined s pid).1.peerConnections).Nodup := by
  unfold onParticipantJoined
  split
  · exact h
  · cases hls : s.localStream with
    | none => simpa [hls] using h
    | some ts =>
      simp only [hls]
      split
      · simp only [createPeerConnection]
        rw [registryKeys_modifyPc]
        exact nodup_registryKeys_mapSet _ _ _ h
      · exact h

theorem nodup_onParticipantLeft (s : RoomState) (pid : String)
    (h : (registryKeys s.peerConnections).Nodup) :
    (registryKeys (onParticipantLeft s pid).peerConnections).Nodup := by
  unfold onParticipantLeft
  cases hg : mapGet s.peerConnections pid with
  | some pc =>
    simp only [hg]
    exact nodup_registryKeys_mapDelete _ _ h
  | none => simpa only [hg] using h

theorem nodup_stepRoom (s : RoomState) (ev : RoomEvent)
    (h : (registryKeys s.peerConnections).Nodup) :
    (registryKeys (stepRoom s ev).peerConnections).Nodup := by
  cases ev with
  | joined pid => exact nodup_onParticipantJoined s pid h
  | left pid => exact nodup_onParticipantLeft s pid h
  | signal sig => exact nodup_handleSignalReceived s sig h

theorem nodup_runRoom (s : RoomState) (evs : List RoomEvent)
    (h : (registryKeys s.peerConnections).Nodup) :
    (registryKeys (runRoom s evs).peerConnections).Nodup := by
  induction evs generalizing s with
  | nil => exact h
  | cons ev rest ih => exact ih (stepRoom s ev) (nodup_stepRoom s ev h)

/-- A connection in `have-local-offer` (the OfferSent state of the spec). -/
def offerSentPc : PeerConn :=
  { pcId := 0
    signaling := SignalingState.haveLocalOffer
    hasRemoteDesc := false
    senders := [some trackA, some trackV]
    appliedIce := [] }

/-- A room that has sent an offer to peer `b` and awaits the answer. -/
def roomOfferSent : RoomState :=
  { initialRoom with
      localStream := some camStream
      participants := ["b"]
      peerConnections := [("b", offerSentPc)]
      nextPcId := 1 }

/-- C1 counterexample: from the initial state, an Ice candidate (payload 7)
from `b` arrives before any offer, then an Offer from `b` arrives and is
applied; the claim requires the queued candidate to then be applied exactly
once, but the connection ends with an empty applied-candidate list — the
candidate was dropped, there is no pending queue. -/
theorem claim1_counterexample :
    (mapGet (runRoom initialRoom
        [RoomEvent.signal
           { sender_id := "b", target_id := some "a", type := SignalType.ice, payload := 7 },
         RoomEvent.signal
           { sender_id := "b", target_id := some "a", type := SignalType.offer, payload := 0 }]).peerConnections
        "b").map PeerConn.appliedIce = some [] ∧
    ¬ (mapGet (runRoom initialRoom
        [RoomEvent.signal
           { sender_id := "b", target_id := some "a", type := SignalType.ice, payload := 7 },
         RoomEvent.signal
           { sender_id := "b", target_id := some "a", type := SignalType.offer, payload := 0 }]).peerConnections
        "b").map PeerConn.appliedIce = some [7] := by
  decide

/-- C1 (amended): an Ice signal received while the remote description is
not yet set — including for a sender with no connection at all — is
discarded outright, with no state change and no queue; an Ice signal
received once the remote description is set is applied immediately,
appended to the applied-candidate list in arrival order. -/
theorem ice_discard_or_apply (s : RoomState) (sig : Signal)
    (hty : sig.type = SignalType.ice) :
    ((∀ pc, mapGet s.peerConnections sig.sender_id = some pc → pc.hasRemoteDesc = false) →
      handleSignalReceived s sig = (s, [])) ∧
    (∀ pc, mapGet s.peerConnections sig.sender_id = some pc → pc.hasRemoteDesc = true →
      (mapGet (handleSignalReceived s sig).1.peerConnections sig.sender_id).map
          PeerConn.appliedIce
        = some (pc.appliedIce ++ [sig.payload])) := by
  rcases sig with ⟨sid, tid, ty, pl⟩
  simp only at hty
  subst hty
  constructor
  · intro hnone
    cases hg : mapGet s.peerConnections sid with
    | none => simp [handleSignalReceived, hg]
    | some pc =>
      have hrd := hnone pc hg
      simp [handleSignalReceived, hg, hrd]
  · intro pc hg hrd
    simp [handleSignalReceived, hg, hrd, mapGet_mapSet_self]

/-- C1 witness: on the concrete room with an established peer `p`, a
candidate (payload 5) is applied immediately; on the concrete room that
only sent an offer to `b`, a candidate is discarded with no state change. -/
theorem ice_discard_or_apply_witness :
    (mapGet (handleSignalReceived roomOnePeer
        { sender_id := "p", target_id := some "me", type := SignalType.ice, payload := 5 }).1.peerConnections
        "p").map PeerConn.appliedIce = some [5] ∧
    handleSignalReceived roomOfferSent
        { sender_id := "b", target_id := some "me", type := SignalType.ice, payload := 5 }
      = (roomOfferSent, []) :=
  ⟨by
    have h := (ice_discard_or_apply roomOnePeer
      { sender_id := "p", target_id := some "me", type := SignalType.ice, payload := 5 }
      rfl).2 stablePc (by decide) rfl
    simpa using h,
   by
    refine (ice_discard_or_apply roomOfferSent
      { sender_id := "b", target_id := some "me", type := SignalType.ice, payload := 5 }
      rfl).1 ?_
    intro pc h
    rw [show mapGet roomOfferSent.peerConnections "b" = some offerSentPc by decide] at h
    cases h
    rfl⟩

/-- C2 counterexample: participant `c` joins (a connection is created for
it), then leaves (the connection is closed and removed); a stale Offer from
`c` then arrives and, far from being rejected or ignored, creates and
registers a brand-new connection (fresh id 1) for `c` and applies the
offer — the registry is changed and the link is resurrected. -/
theorem claim2_counterexample :
    mapGet (runRoom roomWithStream
        [RoomEvent.joined "c", RoomEvent.left "c",
         RoomEvent.signal
           { sender_id := "c", target_id := some "d", type := SignalType.offer, payload := 0 }]).peerConnections
        "c"
      = some
          { pcId := 1
            signaling := SignalingState.stable
            hasRemoteDesc := true
            senders := [some trackA, some trackV]
            appliedIce := [] } := by
  decide

/-- C2 (amended): after the link for a departed sender has been removed, a
stale Offer from that sender is handled exactly like an offer from an
unknown sender: a fresh peer connection (with the next free id) is created
and registered for it, the offer is applied, and an answer is sent back —
the closed link is not reused, but the registry is changed and a new
connection does exist for the departed id. -/
theorem stale_offer_creates_new_conn (s : RoomState) (sig : Signal)
    (hty : sig.type = SignalType.offer)
    (habs : mapGet s.peerConnections sig.sender_id = none) :
    (mapGet (handleSignalReceived s sig).1.peerConnections sig.sender_id).map PeerConn.pcId
        = some s.nextPcId ∧
    (handleSignalReceived s sig).2
        = [{ target := sig.sender_id, sigType := SignalType.answer, payload := 0 }] := by
  rcases sig with ⟨sid, tid, ty, pl⟩
  simp only at hty habs
  subst hty
  simp [handleSignalReceived, habs, newPeerConn, canApplyRemoteOffer, mapGet_mapSet_self]

/-- C2 witness: delivering an Offer from the unknown sender `c` to the
initial room registers connection 0 for `c` and answers it. -/
theorem stale_offer_creates_new_conn_witness :
    (mapGet (handleSignalReceived initialRoom
        { sender_id := "c", target_id := none, type := SignalType.offer, payload := 0 }).1.peerConnections
        "c").map PeerConn.pcId = some 0 ∧
    (handleSignalReceived initialRoom
        { sender_id := "c", target_id := none, type := SignalType.offer, payload := 0 }).2
      = [{ target := "c", sigType := SignalType.answer, payload := 0 }] :=
  stale_offer_creates_new_conn initialRoom
    { sender_id := "c", target_id := none, type := SignalType.offer, payload := 0 }
    rfl (by decide)

/-- C3 counterexample: the local side (any local id, in particular the id
`z` which sorts lexicographically after the sender `b`) is in OfferSent
toward `b`; per the claim the incoming Offer from `b` must then win the
tie-break, be applied, and drive the link to Stable.  Instead the handler
changes nothing and sends nothing: the failed remote-description
application is swallowed, no answer is produced, and the link stays in
`have-local-offer` — there is no id-based glare resolution in the code. -/
theorem claim3_counterexample :
    handleSignalReceived roomOfferSent
        { sender_id := "b", target_id := some "z", type := SignalType.offer, payload := 0 }
      = (roomOfferSent, []) := by
  decide

/-- C3 (amended): handling an incoming Offer never consults the local
participant id (the handler takes no id argument at all), so no
lexicographic tie-break exists.  If the link for the sender is in
`have-local-offer` (both sides offered — glare), the incoming offer is not
applied and nothing at all happens; if the link is in `stable`, the offer
is always applied and answered, whatever the id order. -/
theorem offer_no_tiebreak (s : RoomState) (sig : Signal) (pc : PeerConn)
    (hty : sig.type = SignalType.offer)
    (hpc : mapGet s.peerConnections sig.sender_id = some pc) :
    (pc.signaling = SignalingState.haveLocalOffer → handleSignalReceived s sig = (s, [])) ∧
    (pc.signaling = SignalingState.stable →
      handleSignalReceived s sig
        = ({ s with
               peerConnections :=
                 mapSet s.peerConnections sig.sender_id
                   { pc with signaling := SignalingState.stable, hasRemoteDesc := true } },
           [{ target := sig.sender_id, sigType := SignalType.answer, payload := 0 }])) := by
  rcases sig with ⟨sid, tid, ty, pl⟩
  simp only at hty hpc
  subst hty
  constructor
  · intro hsig
    simp [handleSignalReceived, hpc, hsig, canApplyRemoteOffer]
  · intro hsig
    simp [handleSignalReceived, hpc, hsig, canApplyRemoteOffer]

/-- C3 witness: in the concrete glare state the incoming offer from `b` is
a no-op, and on the concrete stable link with `p` the incoming offer is
applied and answered. -/
theorem offer_no_tiebreak_witness :
    handleSignalReceived roomOfferSent
        { sender_id := "b", target_id := some "a", type := SignalType.offer, payload := 3 }
      = (roomOfferSent, []) ∧
    (handleSignalReceived roomOnePeer
        { sender_id := "p", target_id := some "a", type := SignalType.offer, payload := 3 }).2
      = [{ target := "p", sigType := SignalType.answer, payload := 0 }] :=
  ⟨(offer_no_tiebreak roomOfferSent
      { sender_id := "b", target_id := some "a", type := SignalType.offer, payload := 3 }
      offerSentPc rfl (by decide)).1 rfl,
   by
    rw [(offer_no_tiebreak roomOnePeer
      { sender_id := "p", target_id := some "a", type := SignalType.offer, payload := 3 }
      stablePc rfl (by decide)).2 rfl]⟩

/-- C4 counterexample: two successive creation requests for the same id
`x`.  The second is not idempotent: instead of returning the existing
connection (id 0) it builds a fresh connection (id 1) and overwrites the
registry entry with it. -/
theorem claim4_counterexample :
    (createPeerConnection initialRoom "x" none).1.peerConnections
      = [("x",
          { pcId := 0
            signaling := SignalingState.stable
            hasRemoteDesc := false
            senders := []
            appliedIce := [] })] ∧
    (createPeerConnection (createPeerConnection initialRoom "x" none).1 "x" none).1.peerConnections
      = [("x",
          { pcId := 1
            signaling := SignalingState.stable
            hasRemoteDesc := false
            senders := []
            appliedIce := [] })] := by
  decide

/-- C4 (amended): over every sequence of joined/left/signal events the
registry keeps at most one connection per remote id (its keys stay
pairwise distinct), and a leave event removes the departed id from the
registry; but a duplicate creation request is not idempotent (it replaces
the existing connection with a fresh one — see the counterexample), and a
stale offer can re-add an entry for a departed id, so "none for departed
ids" holds only until a later signal re-creates one. -/
theorem registry_keys_unique (s : RoomState) (evs : List RoomEvent)
    (h : (registryKeys s.peerConnections).Nodup) :
    (registryKeys (runRoom s evs).peerConnections).Nodup ∧
    (∀ pid, mapGet (onParticipantLeft s pid).peerConnections pid = none) := by
  constructor
  · exact nodup_runRoom s evs h
  · intro pid
    unfold onParticipantLeft
    cases hg : mapGet s.peerConnections pid with
    | some pc =>
      simp only [hg]
      exact mapGet_mapDelete_self s.peerConnections pid
    | none =>
      simp only [hg]

/-- C4 witness: a concrete three-event run keeps the registry keys
distinct, and a concrete leave removes the departed id. -/
theorem registry_keys_unique_witness :
    (registryKeys (runRoom roomWithStream
        [RoomEvent.joined "b", RoomEvent.joined "c", RoomEvent.left "b"]).peerConnections).Nodup ∧
    mapGet (onParticipantLeft roomOnePeer "p").peerConnections "p" = none :=
  ⟨(registry_keys_unique roomWithStream
      [RoomEvent.joined "b", RoomEvent.joined "c", RoomEvent.left "b"] (by decide)).1,
   (registry_keys_unique roomOnePeer [] (by decide)).2 "p"⟩

theorem updatePC_of_capable (pc : PeerConn) (newTracks : List MediaTrack)
    (h : canCreateOffer pc.signaling = true) :
    updatePC pc newTracks
      = ({ pc with
             senders := updateSenders pc.senders newTracks
             signaling := SignalingState.haveLocalOffer }, true) := by
  have hnc : pc.signaling ≠ SignalingState.closedState := by
    intro hcl
    rw [hcl] at h
    simp [canCreateOffer] at h
  simp [updatePC, hnc, h]

theorem updatePCs_offers_of_capable (regs : Registry) (newTracks : List MediaTrack)
    (h : ∀ e ∈ regs, canCreateOffer e.2.signaling = true) :
    (updatePeerConnectionStreams regs newTracks).2
      = regs.map (fun e => { target := e.1, sigType := SignalType.offer, payload := 0 }) := by
  induction regs with
  | nil => rfl
  | cons e rest ih =>
    obtain ⟨pid, pc⟩ := e
    have hc := h _ (List.mem_cons_self _ _)
    simp only [updatePeerConnectionStreams,
      updatePC_of_capable pc newTracks hc, List.map_cons]
    simp [ih (fun e2 he2 => h e2 (List.mem_cons_of_mem _ he2))]

theorem updatePCs_registry_of_capable (regs : Registry) (newTracks : List MediaTrack)
    (h : ∀ e ∈ regs, canCreateOffer e.2.signaling = true) :
    (updatePeerConnectionStreams regs newTracks).1
      = regs.map (fun e =>
          (e.1, { e.2 with
                    senders := updateSenders e.2.senders newTracks
                    signaling := SignalingState.haveLocalOffer })) := by
  induction regs with
  | nil => rfl
  | cons e rest ih =>
    obtain ⟨pid, pc⟩ := e
    have hc := h _ (List.mem_cons_self _ _)
    simp only [updatePeerConnectionStreams,
      updatePC_of_capable pc newTracks hc, List.map_cons]
    simp [ih (fun e2 he2 => h e2 (List.mem_cons_of_mem _ he2))]

theorem signaling_setEnabledEverywhere (s : RoomState) (tid : Nat) (e : Bool) :
    (setEnabledEverywhere s tid e).peerConnections.map (fun en => (en.1, en.2.signaling))
      = s.peerConnections.map (fun en => (en.1, en.2.signaling)) := by
  simp only [setEnabledEverywhere, List.map_map]
  rfl

/-- A dead (ended) audio track. -/
def deadAudio : MediaTrack :=
  { kind := TrackKind.audio, tid := 1, enabled := true, live := false }

/-- A room whose only local audio track has ended, with one established
peer. -/
def roomDeadAudio : RoomState :=
  { initialRoom with
      localStream := some [deadAudio]
      participants := ["p"]
      peerConnections := [("p", stablePc)]
      nextPcId := 1 }

/-- C5 counterexample: toggling mute while the audio track has ended makes
the handler re-acquire the stream and renegotiate, sending a fresh offer to
peer `p` — so toggling mute can very well cause a new offer to be created
and sent. -/
theorem claim5_counterexample :
    (handleToggleMute roomDeadAudio (some [trackA])).2
      = [{ target := "p", sigType := SignalType.offer, payload := 0 }] := by
  decide

/-- C5 (amended): toggling mute while the first audio track is live only
flips its enabled flag — no offer is sent and no connection changes its
signaling state; toggling mute with an ended audio track re-acquires the
stream and offers to every peer (see the counterexample); toggling
screen-share, in either direction, sends a renegotiation offer to every
registered peer, provided the acquisition succeeded and each connection is
in an offer-capable state (`stable` or `have-local-offer`). -/
theorem mute_no_offer_share_offers (s : RoomState) :
    (∀ freshStream ts a, s.localStream = some ts → firstAudioTrack ts = some a →
      a.live = true →
      (handleToggleMute s freshStream).2 = [] ∧
      (handleToggleMute s freshStream).1.peerConnections.map (fun en => (en.1, en.2.signaling))
        = s.peerConnections.map (fun en => (en.1, en.2.signaling))) ∧
    (∀ newTracks micFallback,
      (∀ e ∈ s.peerConnections, canCreateOffer e.2.signaling = true) →
      (handleToggleScreenShare s (some newTracks) micFallback).2
        = s.peerConnections.map
            (fun e => { target := e.1, sigType := SignalType.offer, payload := 0 })) := by
  constructor
  · intro freshStream ts a hls hfa hlive
    simp only [handleToggleMute, hls, hfa, hlive]
    constructor
    · simp
    · simpa using signaling_setEnabledEverywhere s a.tid (!a.enabled)
  · intro newTracks micFallback hcap
    by_cases hss : s.isScreenSharing = true
    · simp only [handleToggleScreenShare, hss, if_true]
      simpa using updatePCs_offers_of_capable s.peerConnections newTracks hcap
    · rw [Bool.not_eq_true] at hss
      simp only [handleToggleScreenShare, hss]
      simpa using updatePCs_offers_of_capable s.peerConnections _ hcap

/-- C5 witness: on the concrete one-peer room, toggling mute with the live
audio track sends nothing, and toggling screen-share on sends exactly one
offer, to `p`. -/
theorem mute_no_offer_share_offers_witness :
    (handleToggleMute roomOnePeer none).2 = [] ∧
    (handleToggleScreenShare roomOnePeer (some [trackV2]) none).2
      = [{ target := "p", sigType := SignalType.offer, payload := 0 }] :=
  ⟨((mute_no_offer_share_offers roomOnePeer).1 none camStream trackA rfl (by decide) rfl).1,
   ((mute_no_offer_share_offers roomOnePeer).2 [trackV2] none (by decide)).trans (by decide)⟩

theorem updateSenders_inplace (senders : List (Option MediaTrack))
    (newTracks : List MediaTrack) (i : Nat) (t nt : MediaTrack)
    (hget : senders[i]? = some (some t))
    (hfind : newTracks.find? (fun x => x.kind == t.kind) = some nt) :
    (updateSenders senders newTracks)[i]? = some (some nt) := by
  have hi : i < senders.length := by
    by_contra hc
    rw [List.getElem?_eq_none (Nat.le_of_not_lt hc)] at hget
    exact Option.noConfusion hget
  unfold updateSenders
  rw [List.getElem?_append_left (by simpa using hi), List.getElem?_map, hget]
  simp [replaceSender, hfind]

/-- C6 counterexample: one peer with audio+video senders receives a
same-kind update (fresh audio and video tracks, same kind set).  Both
tracks are indeed swapped in place, but a renegotiation offer is sent
anyway — the code renegotiates on every call, not only when the kind set
changes. -/
theorem claim6_counterexample :
    updatePeerConnectionStreams [("p", stablePc)] [trackA2, trackV2]
      = ([("p",
           { stablePc with
               signaling := SignalingState.haveLocalOffer
               senders := [some trackA2, some trackV2] })],
         [{ target := "p", sigType := SignalType.offer, payload := 0 }]) := by
  decide

/-- C6 (amended): when local tracks are fanned out, a sender whose kind is
also present among the new tracks is swapped in place — position `i` of
the sender list afterwards holds the first new track of that kind — kinds
with no new track are removed and new kinds appended; and a fresh offer is
sent to every (offer-capable) connection on every invocation, regardless
of whether the set of kinds changed. -/
theorem update_streams_inplace_always_offers (regs : Registry)
    (newTracks : List MediaTrack)
    (h : ∀ e ∈ regs, canCreateOffer e.2.signaling = true) :
    ((updatePeerConnectionStreams regs newTracks).2
        = regs.map (fun e => { target := e.1, sigType := SignalType.offer, payload := 0 })) ∧
    ((updatePeerConnectionStreams regs newTracks).1
        = regs.map (fun e =>
            (e.1, { e.2 with
                      senders := updateSenders e.2.senders newTracks
                      signaling := SignalingState.haveLocalOffer }))) ∧
    (∀ (senders : List (Option MediaTrack)) (i : Nat) (t nt : MediaTrack),
        senders[i]? = some (some t) →
        newTracks.find? (fun x => x.kind == t.kind) = some nt →
        (updateSenders senders newTracks)[i]? = some (some nt)) :=
  ⟨updatePCs_offers_of_capable regs newTracks h,
   updatePCs_registry_of_capable regs newTracks h,
   fun senders i t nt hget hfind => updateSenders_inplace senders newTracks i t nt hget hfind⟩

/-- C6 witness: concrete instantiation — one stable peer, one fresh audio
track: the offer is sent, and position 0 of the concrete sender list
(audio) is swapped in place to the fresh audio track. -/
theorem update_streams_inplace_always_offers_witness :
    (updatePeerConnectionStreams [("q", stablePc)] [trackA2]).2
      = [{ target := "q", sigType := SignalType.offer, payload := 0 }] ∧
    (updateSenders [some trackA, some trackV] [trackA2])[0]? = some (some trackA2) :=
  ⟨(update_streams_inplace_always_offers [("q", stablePc)] [trackA2] (by decide)).1,
   (update_streams_inplace_always_offers [] [trackA2] (by decide)).2.2
     [some trackA, some trackV] 0 trackA trackA2 (by decide) (by decide)⟩

/-- C7: an incoming Answer is applied — remote description set and the
link moved to `stable` — exactly when the connection for the sender exists
and is in `have-local-offer` (OfferSent); an Answer for a connection in any
other state, or for an unknown sender, leaves the whole state unchanged
and produces no output (the guard skips it, nothing throws). -/
theorem answer_only_from_offer_sent (s : RoomState) (sig : Signal)
    (hty : sig.type = SignalType.answer) :
    (∀ pc, mapGet s.peerConnections sig.sender_id = some pc →
        pc.signaling = SignalingState.haveLocalOffer →
        handleSignalReceived s sig
          = ({ s with
                 peerConnections :=
                   mapSet s.peerConnections sig.sender_id
                     { pc with signaling := SignalingState.stable, hasRemoteDesc := true } },
             []) ∧
        (mapGet (handleSignalReceived s sig).1.peerConnections sig.sender_id).map
            PeerConn.signaling
          = some SignalingState.stable) ∧
    (∀ pc, mapGet s.peerConnections sig.sender_id = some pc →
        pc.signaling ≠ SignalingState.haveLocalOffer →
        handleSignalReceived s sig = (s, [])) ∧
    (mapGet s.peerConnections sig.sender_id = none →
        handleSignalReceived s sig = (s, [])) := by
  rcases sig with ⟨sid, tid, ty, pl⟩
  simp only at hty
  subst hty
  refine ⟨?_, ?_, ?_⟩
  · intro pc hpc hsig
    constructor
    · simp [handleSignalReceived, hpc, hsig]
    · simp [handleSignalReceived, hpc, hsig, mapGet_mapSet_self]
  · intro pc hpc hsig
    simp [handleSignalReceived, hpc, hsig]
  · intro hpc
    simp [handleSignalReceived, hpc]

/-- C7 witness: the concrete OfferSent link with `b` moves to `stable` on
the answer; the concrete stable link with `p` and the unknown sender `q`
are both no-ops. -/
theorem answer_only_from_offer_sent_witness :
    (mapGet (handleSignalReceived roomOfferSent
        { sender_id := "b", target_id := some "a", type := SignalType.answer, payload := 4 }).1.peerConnections
        "b").map PeerConn.signaling = some SignalingState.stable ∧
    handleSignalReceived roomOnePeer
        { sender_id := "p", target_id := some "a", type := SignalType.answer, payload := 4 }
      = (roomOnePeer, []) ∧
    handleSignalReceived initialRoom
        { sender_id := "q", target_id := some "a", type := SignalType.answer, payload := 4 }
      = (initialRoom, []) :=
  ⟨((answer_only_from_offer_sent roomOfferSent
      { sender_id := "b", target_id := some "a", type := SignalType.answer, payload := 4 }
      rfl).1 offerSentPc (by decide) rfl).2,
   (answer_only_from_offer_sent roomOnePeer
      { sender_id := "p", target_id := some "a", type := SignalType.answer, payload := 4 }
      rfl).2.1 stablePc (by decide) (by decide),
   (answer_only_from_offer_sent initialRoom
      { sender_id := "q", target_id := some "a", type := SignalType.answer, payload := 4 }
      rfl).2.2 (by decide)⟩

/-- C8: the fan-out of a local-tracks change is per-connection isolated:
for any registry split around one entry, the result on every other entry —
both its updated connection and the offer it is sent — is exactly what the
fan-out produces without that entry present, and the entry itself
contributes `updatePC` of its own connection alone (whose `false` flag is
the caught per-entry failure, e.g. a closed connection); the fan-out is a
total function, so no single failure escapes it or tears anything else
down. -/
theorem fanout_isolated (l1 l2 : Registry) (pid : String) (pc : PeerConn)
    (newTracks : List MediaTrack) :
    (updatePeerConnectionStreams (l1 ++ (pid, pc) :: l2) newTracks).1
      = (updatePeerConnectionStreams l1 newTracks).1
          ++ (pid, (updatePC pc newTracks).1) :: (updatePeerConnectionStreams l2 newTracks).1 ∧
    (updatePeerConnectionStreams (l1 ++ (pid, pc) :: l2) newTracks).2
      = (updatePeerConnectionStreams l1 newTracks).2
          ++ ((if (updatePC pc newTracks).2 then
                 [{ target := pid, sigType := SignalType.offer, payload := 0 }]
               else [])
              ++ (updatePeerConnectionStreams l2 newTracks).2) := by
  induction l1 with
  | nil => simp [updatePeerConnectionStreams]
  | cons e rest ih =>
    obtain ⟨p2, pc2⟩ := e
    simp only [List.cons_append, updatePeerConnectionStreams]
    exact ⟨by simp [ih.1], by simp [ih.2]⟩

/-- C9: calling `leaveRoom` a second time is observably the same as
calling it once — the second call finds `isJoined` already cleared,
performs no cleanup RPC (no participant-record deletion), and returns the
state unchanged. -/
theorem leaveRoom_idempotent (st : HookState) (roomId pid : String) :
    leaveRoom (leaveRoom st roomId pid).1 roomId pid
      = ((leaveRoom st roomId pid).1, false) := by
  by_cases hj : st.isJoined = false
  · simp [leaveRoom, hj]
  · simp [leaveRoom, hj]

/-- C10: the realtime INSERT handler invokes `onSignalReceived` exactly
when the row was sent by another participant and is addressed to the local
participant or broadcast (`target_id` null); rows the local participant
sent, and rows addressed to someone else, are never delivered. -/
theorem signal_filter_correct (participantId : String) (sig : Signal) :
    (signalRowDelivered participantId sig = some sig ↔
      (sig.sender_id ≠ participantId ∧
        (sig.target_id = some participantId ∨ sig.target_id = none))) ∧
    (signalRowDelivered participantId sig = none ↔
      ¬ (sig.sender_id ≠ participantId ∧
        (sig.target_id = some participantId ∨ sig.target_id = none))) := by
  unfold signalRowDelivered
  by_cases h1 : sig.sender_id = participantId <;>
    by_cases h2 : sig.target_id = some participantId <;>
      by_cases h3 : sig.target_id = none <;>
        simp [h1, h2, h3]
